import Mathlib

/-
Verification of the SamKnows Whitebox client (Home Assistant custom integration).

The development shallowly embeds the Python source under
`homeassistant/components/samknows/` (the `samknows_whitebox` package is the
primary draft; `whitebox.py` is an older draft of the same client):

* `helpers._make_request`            -> `make_request`
* `auth.ExpirableToken.is_expired`   -> `ExpirableToken.is_expired`
* `auth.AuthManager.login`           -> `login`
* `auth.AuthManager._refresh_access_token` -> `refresh_access_token`
* `auth.AuthManager.get_fresh_token` -> `get_fresh_token`
* `api.WhiteboxApi._fetch_unit_information` -> `fetch_unit_information`
* `api.WhiteboxApi._get_unit`        -> `get_unit`
* `api.WhiteboxApi.fetch_user_units` -> `fetch_user_units`
* `api.WhiteboxApi._parse_scheduled_test_result` -> `parse_scheduled_test_result`
* `api.WhiteboxApi._fetch_scheduled_test_results` -> `fetch_scheduled_test_results`
* `api.WhiteboxApi.fetch_scheduled_unit_tests` -> `fetch_scheduled_unit_tests`
* `api.WhiteboxApi.fetch_all_unit_updates` -> `fetch_all_unit_updates`

Network traffic and clock reads are passed in explicitly as an environment;
Python exceptions are modelled with `Except`; parsed JSON bodies are modelled
by the inductive `JVal`, with Python `None` identified with JSON `null`.
Timestamps (`datetime` values) are modelled as integers.
-/

namespace SamKnows

/-- Parsed JSON values as the Python client sees them after `resp.json()`. -/
inductive JVal where
  | null
  | bool (b : Bool)
  | int (n : Int)
  | str (s : String)
  | arr (xs : List JVal)
  | obj (fields : List (String × JVal))
deriving Repr

/-- Python exceptions that the embedded code can raise. -/
inductive PyExc where
  | requestFailed
  | couldNotAuthenticate
  | attributeError
  | keyError
  | typeError
  | valueError
  | clientConnectorError
  | contentTypeError
  | nameError
deriving Repr, DecidableEq

/-- Lookup in an association list modelling a Python dict (`d.get(k)`):
keys of a Python dict are unique, so the first binding wins. -/
def pyGet {κ α : Type} [DecidableEq κ] : List (κ × α) → κ → Option α
  | [], _ => none
  | (k', v) :: rest, k => if k' = k then some v else pyGet rest k

/-- Assignment `d[k] = v` on a Python dict: replace an existing binding in
place, otherwise append the new binding. -/
def pySet {κ α : Type} [DecidableEq κ] : List (κ × α) → κ → α → List (κ × α)
  | [], k, v => [(k, v)]
  | (k', v') :: rest, k, v =>
    if k' = k then (k, v) :: rest else (k', v') :: pySet rest k v

/-- Subscription `v[k]` on a parsed JSON value: `KeyError` when the key is
missing from a dict, `TypeError` when `v` is not a dict. -/
def pyIndexJ (v : JVal) (key : String) : Except PyExc JVal :=
  match v with
  | .obj fields =>
    match pyGet fields key with
    | some x => .ok x
    | none => .error .keyError
  | _ => .error .typeError

/-- Subscription `v[k]` where `v` may be Python `None` (as returned by
`_make_request` for an absent payload). -/
def pyIndex (v : Option JVal) (key : String) : Except PyExc JVal :=
  match v with
  | some x => pyIndexJ x key
  | none => .error .typeError

/-- Effectful map over a list in the `Except` monad, defined by structural
recursion (failure aborts, as an exception in a Python loop would). -/
def mapExcept {α β : Type} (f : α → Except PyExc β) : List α → Except PyExc (List β)
  | [] => .ok []
  | a :: as =>
    match f a with
    | .error e => .error e
    | .ok b =>
      match mapExcept f as with
      | .error e => .error e
      | .ok bs => .ok (b :: bs)

/-- Embedding of `_make_request` from helpers.py lines 7-38 (the copy that
api.py imports), applied to the parsed JSON envelope of the response: when
`response.get("code") == "OK"` it returns `response.get("data")` (possibly
absent, i.e. `none`); otherwise it logs and executes `raise RequestFailed()`
— but helpers.py never imports `RequestFailed`, so at runtime that raise
statement itself raises `NameError`. -/
def make_request (response : List (String × JVal)) : Except PyExc (Option JVal) :=
  match pyGet response "code" with
  | some (.str c) =>
    if c = "OK" then .ok (pyGet response "data") else .error .nameError
  | _ => .error .nameError

/-- Embedding of the `_make_request` copy at whitebox.py lines 204-232:
same body as the helpers.py copy, but `RequestFailed` is defined at the
bottom of the same module, so the non-OK path does raise `RequestFailed`. -/
def make_request_wb (response : List (String × JVal)) : Except PyExc (Option JVal) :=
  match pyGet response "code" with
  | some (.str c) =>
    if c = "OK" then .ok (pyGet response "data") else .error .requestFailed
  | _ => .error .requestFailed

/-- Embedding of `ExpirableToken` (auth.py): a token value together with its
expiry timestamp.  The token field is a `JVal` because Python stores whatever
value the response carried. -/
structure ExpirableToken where
  token : JVal
  expiry : Int
deriving Repr

/-- Embedding of `ExpirableToken.is_expired` (auth.py line 22-23):
`datetime.now() >= self.expiry`. -/
def ExpirableToken.is_expired (t : ExpirableToken) (now : Int) : Bool :=
  now ≥ t.expiry

/-- What `AuthManager.access_token` can dynamically hold: `login` stores an
`ExpirableToken`, but `_refresh_access_token` (auth.py line 133) stores the
bare value taken from the response.  Python is dynamically typed, so both
states are reachable. -/
inductive StoredAccessToken where
  | wrapped (t : ExpirableToken)
  | raw (v : JVal)
deriving Repr

/-- Mutable state of `AuthManager` (auth.py).  `access_token_expiry` is the
attribute written only by `_refresh_access_token` at auth.py line 134; no
other code in auth.py reads it. -/
structure AuthState where
  access_token : Option StoredAccessToken := none
  access_token_expiry : Option Int := none
  refresh_token : Option ExpirableToken := none
deriving Repr

/-- Outcome of one HTTP POST as seen by the auth code: the connection itself
can fail, reading and parsing the body can raise
`aiohttp.ClientConnectorError` or some other exception (`ContentTypeError`,
`JSONDecodeError`, ...), or a parsed JSON object is produced. -/
inductive HttpOutcome where
  | connectFailure
  | parseClientConnectorError
  | parseFailure
  | body (response : List (String × JVal))
deriving Repr

/-- Environment of one `AuthManager` call: the current wall clock, the
outcome of the login and renew POSTs, and the pure parsing oracles.
`jwtExpiry` models `_get_token_expiry` (auth.py lines 142-153, decoding the
expiry claim of a JWT without verifying the signature); `strptime` models
`datetime.strptime(s, "%Y-%m-%d %H:%M:%S")`; `none` means the call raises. -/
structure AuthEnv where
  now : Int
  loginOutcome : HttpOutcome
  renewOutcome : HttpOutcome
  jwtExpiry : JVal → Option Int
  strptime : JVal → Option Int

/-- Embedding of `AuthManager.login` (auth.py lines 52-95).  The `try` block
there wraps only `raw_response.json()` and catches only
`aiohttp.ClientConnectorError`; every other exception propagates:
a connection failure is raised by `session.post` outside the `try`, a body
parse failure raises `ContentTypeError`, and a success envelope with missing
keys raises `KeyError`.  On a success envelope the access token is stored
first (wrapped, with its JWT-decoded expiry), then the refresh token with
the server-provided `expiresAt`. -/
def login (env : AuthEnv) (st : AuthState) : AuthState × Except PyExc Bool :=
  match env.loginOutcome with
  | .connectFailure => (st, .error .clientConnectorError)
  | .parseClientConnectorError => (st, .ok false)
  | .parseFailure => (st, .error .contentTypeError)
  | .body response =>
    match pyGet response "code" with
    | some (.str c) =>
      if c = "OK" then
        match pyGet response "data" with
        | none => (st, .error .keyError)
        | some data =>
          match pyIndexJ data "accessToken" with
          | .error e => (st, .error e)
          | .ok atok =>
            match env.jwtExpiry atok with
            | none => (st, .error .valueError)
            | some aexp =>
              let st1 : AuthState :=
                { st with access_token := some (.wrapped ⟨atok, aexp⟩) }
              match pyIndexJ data "refreshToken" with
              | .error e => (st1, .error e)
              | .ok rt =>
                match pyIndexJ rt "token" with
                | .error e => (st1, .error e)
                | .ok rtok =>
                  match pyIndexJ rt "expiresAt" with
                  | .error e => (st1, .error e)
                  | .ok rexp =>
                    match env.strptime rexp with
                    | none => (st1, .error .valueError)
                    | some rexpT =>
                      ({ st1 with refresh_token := some ⟨rtok, rexpT⟩ }, .ok true)
      else (st, .ok false)
    | _ => (st, .ok false)

/-- Embedding of `AuthManager._refresh_access_token` (auth.py lines 113-139).
With no refresh token, or an expired one, it returns `False` with no network
request.  The POST itself sits outside the `try`, so a connection failure
propagates; inside the `try` every exception is caught (`except Exception`)
and turned into `False`.  On a success envelope the code stores the BARE
response value into `access_token` (line 133) and the decoded expiry into
the separate `access_token_expiry` attribute (line 134); the assignment to
`access_token` happens before the JWT decode, so it persists even when the
decode then fails. -/
def refresh_access_token (env : AuthEnv) (st : AuthState) : AuthState × Except PyExc Bool :=
  match st.refresh_token with
  | none => (st, .ok false)
  | some rt =>
    if rt.is_expired env.now then (st, .ok false)
    else
      match env.renewOutcome with
      | .connectFailure => (st, .error .clientConnectorError)
      | .parseClientConnectorError => (st, .ok false)
      | .parseFailure => (st, .ok false)
      | .body response =>
        match pyGet response "code" with
        | some (.str c) =>
          if c = "OK" then
            match pyGet response "data" with
            | none => (st, .ok false)
            | some data =>
              match pyIndexJ data "accessToken" with
              | .error _ => (st, .ok false)
              | .ok newTok =>
                let st1 : AuthState := { st with access_token := some (.raw newTok) }
                match env.jwtExpiry newTok with
                | none => (st1, .ok false)
                | some e => ({ st1 with access_token_expiry := some e }, .ok true)
          else (st, .ok false)
        | _ => (st, .ok false)

/-- Continuation of `get_fresh_token` after the fast path (auth.py lines
105-111): attempt a refresh; when it reports failure, attempt a full
`login()` whose boolean result is discarded; then raise
`CouldNotAuthenticate` when `access_token is None`, and otherwise return
`self.access_token.token` (an `AttributeError` when `access_token` holds a
bare value). -/
def get_fresh_token_slow (env : AuthEnv) (st : AuthState) : AuthState × Except PyExc JVal :=
  match refresh_access_token env st with
  | (st1, .error e) => (st1, .error e)
  | (st1, .ok refreshed) =>
    let next : AuthState × Except PyExc Bool :=
      if refreshed then (st1, .ok false) else login env st1
    match next with
    | (st2, .error e) => (st2, .error e)
    | (st2, .ok _) =>
      match st2.access_token with
      | none => (st2, .error .couldNotAuthenticate)
      | some (.wrapped t) => (st2, .ok t.token)
      | some (.raw _) => (st2, .error .attributeError)

/-- Embedding of `AuthManager.get_fresh_token` (auth.py lines 97-111).
Fast path: when `access_token` holds a non-expired `ExpirableToken`, return
its value with no network traffic.  When it holds a bare value (left there
by `_refresh_access_token`), the `is_expired()` call raises
`AttributeError`.  Otherwise fall through to refresh-then-login. -/
def get_fresh_token (env : AuthEnv) (st : AuthState) : AuthState × Except PyExc JVal :=
  match st.access_token with
  | some (.wrapped t) =>
    if t.is_expired env.now then get_fresh_token_slow env st
    else (st, .ok t.token)
  | some (.raw _) => (st, .error .attributeError)
  | none => get_fresh_token_slow env st

/-- Environment of one `WhiteboxApi` call (api.py): the outcome of
`self._auth.get_fresh_token()`, the parsed JSON envelope served for each
endpoint, and the clock reads.  `nowIso` models
`datetime.now().isoformat()`, `today` models
`datetime.now().strftime("%Y-%m-%d")`, and `strptimeFull` models
`datetime.strptime(s, "%Y-%m-%d %H:%M:%S")` on a full date-time string
(`none` means it raises). -/
structure ClientEnv where
  freshToken : Except PyExc JVal
  accessibles : List (String × JVal)
  unitDetail : Int → List (String × JVal)
  scheduledTests : Int → String → String → List (String × JVal)
  nowIso : String
  today : String
  strptimeFull : String → Option Int

/-- Embedding of the `UnitDetails` dict built by `_fetch_unit_information`
(api.py lines 155-164).  Optional metadata fields hold `JVal.null` when the
response omitted them, matching `data.get(key, None)` where Python `None`
and JSON `null` are the same value. -/
structure UnitDetails where
  unit_id : Int
  base : JVal
  front_name : JVal
  mac : JVal
  serial_number : JVal
  package_version : JVal
  is_tt_compatible : JVal
  updated_at : String
deriving Repr

/-- Embedding of `WhiteboxApi._fetch_unit_information` (api.py lines
142-164): fetch a fresh token, issue `GET /units/{unit_id}` through
`_make_request`, then totalize the metadata fields with `data.get`:
absent optional fields default to `None`, an absent `is_tt_compatible`
defaults to `False`, and `updated_at` is the wall-clock time of the fetch.
Subscripting a `None` or non-dict payload raises. -/
def fetch_unit_information (env : ClientEnv) (unit_id : Int) :
    Except PyExc UnitDetails :=
  match env.freshToken with
  | .error e => .error e
  | .ok _ =>
    match make_request (env.unitDetail unit_id) with
    | .error e => .error e
    | .ok payload =>
      match payload with
      | some (.obj fields) =>
        .ok { unit_id := unit_id
              base := (pyGet fields "base").getD .null
              front_name := (pyGet fields "front_name").getD .null
              mac := (pyGet fields "mac").getD .null
              serial_number := (pyGet fields "serial_number").getD .null
              package_version := (pyGet fields "package_version").getD .null
              is_tt_compatible := (pyGet fields "is_tt_compatible").getD (.bool false)
              updated_at := env.nowIso }
      | some _ => .error .typeError
      | none => .error .attributeError

/-- Mutable state of `WhiteboxApi`: the unit cache, a dict keyed by unit
id (api.py line 37). -/
structure ClientState where
  unit_cache : List (Int × UnitDetails) := []
deriving Repr

/-- Embedding of `WhiteboxApi._get_unit` (api.py lines 130-140).  On
`force_fresh`, or on a cache miss, fetch the unit over the network and store
it in the cache; always answer from `self._unit_cache[unit_id]`.  The third
component records which unit ids were fetched over the network by this
call. -/
def get_unit (env : ClientEnv) (st : ClientState) (unit_id : Int)
    (force_fresh : Bool) : ClientState × Except PyExc UnitDetails × List Int :=
  if force_fresh || (pyGet st.unit_cache unit_id).isNone then
    match fetch_unit_information env unit_id with
    | .error e => (st, .error e, [unit_id])
    | .ok unit =>
      let st1 : ClientState := ⟨pySet st.unit_cache unit_id unit⟩
      match pyGet st1.unit_cache unit_id with
      | some u => (st1, .ok u, [unit_id])
      | none => (st1, .error .keyError, [unit_id])
  else
    match pyGet st.unit_cache unit_id with
    | some u => (st, .ok u, [])
    | none => (st, .error .keyError, [])

/-- One-by-one resolution of the listed unit ids through `_get_unit`,
modelling the `asyncio.gather` at api.py lines 116-121: results keep the
input order and the fetched-id log concatenates. -/
def get_units_seq (env : ClientEnv) (st : ClientState) (ids : List Int)
    (force_fresh : Bool) : ClientState × Except PyExc (List UnitDetails) × List Int :=
  match ids with
  | [] => (st, .ok [], [])
  | uid :: rest =>
    match get_unit env st uid force_fresh with
    | (st1, .error e, f1) => (st1, .error e, f1)
    | (st1, .ok u, f1) =>
      match get_units_seq env st1 rest force_fresh with
      | (st2, .error e, f2) => (st2, .error e, f1 ++ f2)
      | (st2, .ok us, f2) => (st2, .ok (u :: us), f1 ++ f2)

/-- The unit ids listed in the `myAccessibles` payload:
`unit_data["unitId"]` for each entry of `response["units"]` (api.py lines
116-120).  Unit ids are integers (see the unit data model). -/
def extractUnitIds (unitsVal : JVal) : Except PyExc (List Int) :=
  match unitsVal with
  | .arr entries =>
    mapExcept (fun e =>
      match pyIndexJ e "unitId" with
      | .error err => .error err
      | .ok (.int n) => .ok n
      | .ok _ => .error .typeError) entries
  | _ => .error .typeError

/-- Embedding of `WhiteboxApi.fetch_user_units` (api.py lines 105-123):
fetch a fresh token, call `GET /myAccessibles` through `_make_request`, then
resolve each entry of `response["units"]` through `_get_unit`, in the listed
order.  The third component records the unit ids fetched over the network. -/
def fetch_user_units (env : ClientEnv) (st : ClientState) (force_fresh : Bool) :
    ClientState × Except PyExc (List UnitDetails) × List Int :=
  match env.freshToken with
  | .error e => (st, .error e, [])
  | .ok _ =>
    match make_request env.accessibles with
    | .error e => (st, .error e, [])
    | .ok response =>
      match pyIndex response "units" with
      | .error e => (st, .error e, [])
      | .ok unitsVal =>
        match extractUnitIds unitsVal with
        | .error e => (st, .error e, [])
        | .ok ids => get_units_seq env st ids force_fresh

/-- Embedding of the dict built by `_parse_scheduled_test_result` (api.py
lines 257-272): a full timestamp (requested date combined with the row's
time of day), the numeric value and the target label. -/
structure ScheduledTestResult where
  timestamp : Int
  value : JVal
  target : JVal
deriving Repr

/-- Comparison key of the `sorted(..., key=lambda result: result["timestamp"])`
call at api.py line 245. -/
def byTimestamp (a b : ScheduledTestResult) : Prop :=
  a.timestamp ≤ b.timestamp

instance : DecidableRel byTimestamp := fun a b =>
  inferInstanceAs (Decidable (a.timestamp ≤ b.timestamp))

instance : IsTotal ScheduledTestResult byTimestamp :=
  ⟨fun a b => Int.le_total a.timestamp b.timestamp⟩

instance : IsTrans ScheduledTestResult byTimestamp :=
  ⟨fun _ _ _ => Int.le_trans⟩

/-- Embedding of `WhiteboxApi._parse_scheduled_test_result` (api.py lines
257-272): read `data["time"]`, build the full timestamp with `strptime` on
`f"{target_date} {result_time}"`, then read `data["metricValue"]` and
`data["target"]`; a malformed row raises (no partial-row recovery). -/
def parse_scheduled_test_result (env : ClientEnv) (data : JVal)
    (target_date : String) : Except PyExc ScheduledTestResult :=
  match pyIndexJ data "time" with
  | .error e => .error e
  | .ok (.str t) =>
    match env.strptimeFull (target_date ++ " " ++ t) with
    | none => .error .valueError
    | some ts =>
      match pyIndexJ data "metricValue" with
      | .error e => .error e
      | .ok v =>
        match pyIndexJ data "target" with
        | .error e => .error e
        | .ok tg => .ok ⟨ts, v, tg⟩
  | .ok _ => .error .typeError

/-- Embedding of the `ScheduledTests` record (models.py lines 55-59). -/
structure ScheduledTests where
  metric_key : String
  metric_unit : JVal
  total_bytes_processed : JVal
  results : List ScheduledTestResult
deriving Repr

/-- Embedding of `WhiteboxApi._fetch_scheduled_test_results` (api.py lines
211-255): call the daily scheduled-tests endpoint through `_make_request`,
parse every row of `data["results"]`, sort the rows by timestamp and
reverse (api.py lines 238-248), then attach the metric metadata and the
data-usage counter. -/
def fetch_scheduled_test_results (env : ClientEnv) (unit_id : Int)
    (target_date : String) (metric : String) : Except PyExc ScheduledTests :=
  match make_request (env.scheduledTests unit_id target_date metric) with
  | .error e => .error e
  | .ok payload =>
    match pyIndex payload "results" with
    | .error e => .error e
    | .ok (.arr rows) =>
      match mapExcept (fun row => parse_scheduled_test_result env row target_date) rows with
      | .error e => .error e
      | .ok parsed =>
        let results := (parsed.insertionSort byTimestamp).reverse
        match pyIndex payload "metricMetadata" with
        | .error e => .error e
        | .ok mm =>
          match pyIndexJ mm "metricUnit" with
          | .error e => .error e
          | .ok mu =>
            match pyIndex payload "dataUsage" with
            | .error e => .error e
            | .ok du =>
              match pyIndexJ du "totalBytesProcessed" with
              | .error e => .error e
              | .ok tb =>
                .ok { metric_key := metric, metric_unit := mu,
                      total_bytes_processed := tb, results := results }
    | .ok _ => .error .typeError

/-- Embedding of the `ScheduledUnitTests` record (models.py lines 62-65). -/
structure ScheduledUnitTests where
  date : String
  httpgetmt : ScheduledTests
  httppostmt : ScheduledTests
deriving Repr

/-- Embedding of `WhiteboxApi.fetch_scheduled_unit_tests` (api.py lines
166-202): default the date to today, fetch a token once, fetch the two
fixed metrics (`httpgetmt` then `httppostmt`, gathered concurrently but
combined in this order), key the gathered records by their `metric_key`,
and read the two entries back out of that dict. -/
def fetch_scheduled_unit_tests (env : ClientEnv) (unit_id : Int)
    (target_date : Option String) : Except PyExc ScheduledUnitTests :=
  let d := target_date.getD env.today
  match env.freshToken with
  | .error e => .error e
  | .ok _ =>
    match fetch_scheduled_test_results env unit_id d "httpgetmt" with
    | .error e => .error e
    | .ok tg =>
      match fetch_scheduled_test_results env unit_id d "httppostmt" with
      | .error e => .error e
      | .ok tp =>
        let metric_results := pySet (pySet ([] : List (String × ScheduledTests)) tg.metric_key tg) tp.metric_key tp
        match pyGet metric_results "httpgetmt" with
        | none => .error .keyError
        | some g =>
          match pyGet metric_results "httppostmt" with
          | none => .error .keyError
          | some p => .ok { date := d, httpgetmt := g, httppostmt := p }

/-- Embedding of the `UnitUpdate` record (models.py lines 68-74). -/
structure UnitUpdate where
  unit : UnitDetails
  measurements : ScheduledUnitTests
deriving Repr

/-- One branch of the `asyncio.gather` at api.py lines 78-83, i.e.
`_fetch_unit_measurements` (api.py lines 204-209): pair the unit id with its
scheduled unit tests. -/
def unitMeasurementsStep (env : ClientEnv) (u : UnitDetails) :
    Except PyExc (Int × ScheduledUnitTests) :=
  match fetch_scheduled_unit_tests env u.unit_id none with
  | .error e => .error e
  | .ok m => .ok (u.unit_id, m)

/-- One entry of the result dict comprehension at api.py lines 95-103:
`unit["unit_id"]` mapped to the `UnitUpdate` pairing the unit with
`measurements[unit["unit_id"]]` (a `KeyError` when absent). -/
def unitUpdateStep (measurements : List (Int × ScheduledUnitTests))
    (u : UnitDetails) : Except PyExc (Int × UnitUpdate) :=
  match pyGet measurements u.unit_id with
  | some m => .ok (u.unit_id, { unit := u, measurements := m })
  | none => .error .keyError

/-- Embedding of `WhiteboxApi.fetch_all_unit_updates` (api.py lines 69-103):
fetch the user's units (cache-backed, no force), fetch each unit's scheduled
tests keyed by `unit["unit_id"]` (gathered concurrently, combined in listed
order), then build the result dict mapping each listed unit id to its
`UnitUpdate`. -/
def fetch_all_unit_updates (env : ClientEnv) (st : ClientState) :
    ClientState × Except PyExc (List (Int × UnitUpdate)) :=
  match fetch_user_units env st false with
  | (st1, .error e, _) => (st1, .error e)
  | (st1, .ok units, _) =>
    match mapExcept (unitMeasurementsStep env) units with
    | .error e => (st1, .error e)
    | .ok pairs =>
      let measurements := pairs.foldl
        (fun acc (p : Int × ScheduledUnitTests) => pySet acc p.1 p.2) []
      match mapExcept (unitUpdateStep measurements) units with
      | .error e => (st1, .error e)
      | .ok entries =>
        (st1, .ok (entries.foldl
          (fun acc (p : Int × UnitUpdate) => pySet acc p.1 p.2) []))

/-! Concrete scenarios used as counterexamples and witnesses. -/

/-- Scenario: the stored access token has expired at time 100 and the clock
reads 200; there is no refresh token; the login endpoint answers a non-OK
envelope, so both refresh and login fail. -/
def envA : AuthEnv :=
  { now := 200
    loginOutcome := .body [("code", .str "ERROR")]
    renewOutcome := .body []
    jwtExpiry := fun _ => none
    strptime := fun _ => none }

/-- State for the scenario of `envA`: an expired wrapped access token and no
refresh token. -/
def stA : AuthState :=
  { access_token := some (.wrapped ⟨.str "old", 100⟩)
    access_token_expiry := none
    refresh_token := none }

/-- Scenario: a valid refresh token and a renew endpoint that answers a
success envelope carrying the new access token string `newtok`, whose JWT
expiry claim decodes to 2000. -/
def envB : AuthEnv :=
  { now := 500
    loginOutcome := .body []
    renewOutcome := .body [("code", .str "OK"),
                           ("data", .obj [("accessToken", .str "newtok")])]
    jwtExpiry := fun v =>
      match v with
      | .str s => if s = "newtok" then some 2000 else none
      | _ => none
    strptime := fun _ => none }

/-- State for the scenario of `envB`: no access token yet, a refresh token
valid until 1000. -/
def stB : AuthState :=
  { access_token := none
    access_token_expiry := none
    refresh_token := some ⟨.str "rt", 1000⟩ }

/-- State after a successful renewal in the scenario of `envB`: the bare
string `newtok` sits in `access_token` and the decoded expiry went to the
stray `access_token_expiry` attribute. -/
def stB' : AuthState :=
  { access_token := some (.raw (.str "newtok"))
    access_token_expiry := some 2000
    refresh_token := some ⟨.str "rt", 1000⟩ }

/-- Scenario: the login response body is not parseable JSON
(`aiohttp` raises while reading it). -/
def envMalformed : AuthEnv :=
  { now := 0, loginOutcome := .parseFailure, renewOutcome := .body []
    jwtExpiry := fun _ => none, strptime := fun _ => none }

/-- Scenario: the connection to the login endpoint fails. -/
def envNetFail : AuthEnv :=
  { now := 0, loginOutcome := .connectFailure, renewOutcome := .body []
    jwtExpiry := fun _ => none, strptime := fun _ => none }

/-- Scenario: the login endpoint answers an envelope with a non-success
status code. -/
def envBadCode : AuthEnv :=
  { now := 0, loginOutcome := .body [("code", .str "ERROR")]
    renewOutcome := .body [], jwtExpiry := fun _ => none
    strptime := fun _ => none }

/-- Client scenario for the unit-detail totalization witness: the unit
detail endpoint answers a success envelope whose payload is an empty
object. -/
def envDetail : ClientEnv :=
  { freshToken := .ok (.str "tok")
    accessibles := []
    unitDetail := fun _ => [("code", .str "OK"), ("data", .obj [])]
    scheduledTests := fun _ _ _ => []
    nowIso := "2026-01-01T00:00:00"
    today := "2026-01-01"
    strptimeFull := fun _ => none }

/-- Rows of the sorting scenario: times 10, 5 and 1 seconds before
10:00:00, listed oldest first. -/
def rowsSort : List JVal :=
  [.obj [("time", .str "09:59:50"), ("metricValue", .int 10), ("target", .str "srv")],
   .obj [("time", .str "09:59:55"), ("metricValue", .int 20), ("target", .str "srv")],
   .obj [("time", .str "09:59:59"), ("metricValue", .int 30), ("target", .str "srv")]]

/-- Data payload of the sorting scenario. -/
def dataSort : JVal :=
  .obj [("results", .arr rowsSort),
        ("metricMetadata", .obj [("metricUnit", .str "Mbps")]),
        ("dataUsage", .obj [("totalBytesProcessed", .int 42)])]

/-- Client scenario for the sorting witness: one metric response carrying
the three rows of `rowsSort`. -/
def envSort : ClientEnv :=
  { freshToken := .ok (.str "tok")
    accessibles := []
    unitDetail := fun _ => []
    scheduledTests := fun _ _ _ => [("code", .str "OK"), ("data", dataSort)]
    nowIso := "2026-01-01T10:00:00"
    today := "2026-01-01"
    strptimeFull := fun s =>
      if s = "2026-01-01 09:59:50" then some 35990
      else if s = "2026-01-01 09:59:55" then some 35995
      else if s = "2026-01-01 09:59:59" then some 35999
      else none }

/-- Rows of the `envSort` scenario as parsed, in response order
(oldest first). -/
def parsedSort : List ScheduledTestResult :=
  [⟨35990, .int 10, .str "srv"⟩, ⟨35995, .int 20, .str "srv"⟩,
   ⟨35999, .int 30, .str "srv"⟩]

/-- Expected record for the `envSort` scenario: results in descending
timestamp order, most recent first. -/
def sortedTests : ScheduledTests :=
  { metric_key := "httpgetmt"
    metric_unit := .str "Mbps"
    total_bytes_processed := .int 42
    results := [⟨35999, .int 30, .str "srv"⟩, ⟨35995, .int 20, .str "srv"⟩,
                ⟨35990, .int 10, .str "srv"⟩] }

/-- End-to-end client scenario: the backend lists exactly unit id 1, serves
a detail payload for it, and serves one result row for each of the two
metrics. -/
def envAll : ClientEnv :=
  { freshToken := .ok (.str "tok")
    accessibles := [("code", .str "OK"),
                    ("data", .obj [("units", .arr [.obj [("unitId", .int 1)]])])]
    unitDetail := fun _ =>
      [("code", .str "OK"),
       ("data", .obj [("front_name", .str "Home"), ("mac", .str "AA:BB")])]
    scheduledTests := fun _ _ metric =>
      [("code", .str "OK"),
       ("data", .obj
         [("results", .arr
            [.obj [("time", .str "12:00:00"),
                   ("metricValue", .int (if metric = "httpgetmt" then 100 else 200)),
                   ("target", .str "srv")]]),
          ("metricMetadata", .obj [("metricUnit", .str "Mbps")]),
          ("dataUsage", .obj [("totalBytesProcessed", .int 7)])])]
    nowIso := "2026-01-02T03:04:05"
    today := "2026-01-02"
    strptimeFull := fun s =>
      if s = "2026-01-02 12:00:00" then some 1767355200 else none }

/-- Details of unit 1 as fetched in the `envAll` scenario. -/
def unitOne : UnitDetails :=
  { unit_id := 1, base := .null, front_name := .str "Home", mac := .str "AA:BB"
    serial_number := .null, package_version := .null
    is_tt_compatible := .bool false, updated_at := "2026-01-02T03:04:05" }

/-- Expected `UnitUpdate` for unit 1 in the `envAll` scenario. -/
def updateOne : UnitUpdate :=
  { unit := unitOne
    measurements :=
      { date := "2026-01-02"
        httpgetmt :=
          { metric_key := "httpgetmt", metric_unit := .str "Mbps"
            total_bytes_processed := .int 7
            results := [⟨1767355200, .int 100, .str "srv"⟩] }
        httppostmt :=
          { metric_key := "httppostmt", metric_unit := .str "Mbps"
            total_bytes_processed := .int 7
            results := [⟨1767355200, .int 200, .str "srv"⟩] } } }

/-! Auxiliary lemmas about the Python dict model. -/

theorem pyGet_pySet_self {κ α : Type} [DecidableEq κ] (l : List (κ × α)) (k : κ) (v : α) :
    pyGet (pySet l k v) k = some v := by
  induction l with
  | nil => simp [pySet, pyGet]
  | cons hd tl ih =>
    obtain ⟨k0, v0⟩ := hd
    by_cases h : k0 = k
    · subst h; simp [pySet, pyGet]
    · simp [pySet, pyGet, h, ih]

theorem pyGet_pySet_ne {κ α : Type} [DecidableEq κ] (l : List (κ × α)) (k k' : κ) (v : α)
    (h : k' ≠ k) : pyGet (pySet l k v) k' = pyGet l k' := by
  induction l with
  | nil => simp [pySet, pyGet, Ne.symm h]
  | cons hd tl ih =>
    obtain ⟨k0, v0⟩ := hd
    by_cases h0 : k0 = k
    · subst h0; simp [pySet, pyGet, Ne.symm h]
    · simp [pySet, pyGet, h0, ih]

theorem pyGet_eq_none {κ α : Type} [DecidableEq κ] (l : List (κ × α)) (k : κ) :
    pyGet l k = none ↔ k ∉ l.map Prod.fst := by
  induction l with
  | nil => simp [pyGet]
  | cons hd tl ih =>
    obtain ⟨k0, v0⟩ := hd
    by_cases h : k0 = k
    · subst h; simp [pyGet]
    · simp [pyGet, h, Ne.symm h, ih]

theorem pyGet_mem {κ α : Type} [DecidableEq κ] (l : List (κ × α)) (k : κ) (v : α)
    (h : pyGet l k = some v) : (k, v) ∈ l := by
  induction l with
  | nil => simp [pyGet] at h
  | cons hd tl ih =>
    obtain ⟨k0, v0⟩ := hd
    by_cases h0 : k0 = k
    · subst h0
      simp [pyGet] at h
      subst h
      exact List.mem_cons_self _ _
    · simp [pyGet, h0] at h
      exact List.mem_cons_of_mem _ (ih h)

theorem mem_pySet {κ α : Type} [DecidableEq κ] (l : List (κ × α)) (k : κ) (v : α)
    (p : κ × α) (h : p ∈ pySet l k v) : p = (k, v) ∨ p ∈ l := by
  induction l with
  | nil => simpa [pySet] using h
  | cons hd tl ih =>
    obtain ⟨k0, v0⟩ := hd
    by_cases h0 : k0 = k
    · subst h0
      simp [pySet] at h
      rcases h with h | h
      · exact Or.inl (by simp [h])
      · exact Or.inr (List.mem_cons_of_mem _ h)
    · simp [pySet, h0] at h
      rcases h with h | h
      · exact Or.inr (by simp [h])
      · rcases ih h with h' | h'
        · exact Or.inl h'
        · exact Or.inr (List.mem_cons_of_mem _ h')

theorem pySet_not_mem {κ α : Type} [DecidableEq κ] (l : List (κ × α)) (k : κ) (v : α)
    (h : k ∉ l.map Prod.fst) : pySet l k v = l ++ [(k, v)] := by
  induction l with
  | nil => simp [pySet]
  | cons hd tl ih =>
    obtain ⟨k0, v0⟩ := hd
    simp only [List.map_cons, List.mem_cons] at h
    push_neg at h
    have hk : ¬ (k0 = k) := fun hh => h.1 hh.symm
    simp [pySet, hk, ih h.2]

theorem foldl_pySet_keys {α : Type} (entries : List (Int × α)) :
    ∀ acc : List (Int × α),
    (∀ k ∈ entries.map Prod.fst, pyGet acc k = none) →
    (entries.map Prod.fst).Nodup →
    (entries.foldl (fun acc p => pySet acc p.1 p.2) acc).map Prod.fst =
      acc.map Prod.fst ++ entries.map Prod.fst := by
  induction entries with
  | nil => intro acc _ _; simp
  | cons p ps ih =>
    intro acc hfresh hnd
    obtain ⟨k, v⟩ := p
    simp only [List.map_cons, List.nodup_cons] at hnd
    have hkfresh : pyGet acc k = none := hfresh k (by simp)
    have hacc : pySet acc k v = acc ++ [(k, v)] :=
      pySet_not_mem acc k v ((pyGet_eq_none acc k).mp hkfresh)
    have hfresh' : ∀ k' ∈ ps.map Prod.fst, pyGet (pySet acc k v) k' = none := by
      intro k' hk'
      have hne : k' ≠ k := fun hEq => hnd.1 (hEq ▸ hk')
      rw [pyGet_pySet_ne _ _ _ _ hne]
      exact hfresh k' (by simp [hk'])
    rw [List.foldl_cons]
    rw [ih (pySet acc k v) hfresh' hnd.2, hacc]
    simp

/-! Auxiliary lemmas about the unit cache. -/

theorem get_unit_force (env : ClientEnv) (st : ClientState) (uid : Int) (u : UnitDetails)
    (hu : fetch_unit_information env uid = .ok u) :
    get_unit env st uid true = (⟨pySet st.unit_cache uid u⟩, .ok u, [uid]) := by
  simp [get_unit, hu, pyGet_pySet_self]

theorem get_unit_miss (env : ClientEnv) (st : ClientState) (uid : Int) (u : UnitDetails)
    (hmiss : pyGet st.unit_cache uid = none)
    (hu : fetch_unit_information env uid = .ok u) :
    get_unit env st uid false = (⟨pySet st.unit_cache uid u⟩, .ok u, [uid]) := by
  simp [get_unit, hmiss, hu, pyGet_pySet_self]

theorem get_unit_hit (env : ClientEnv) (st : ClientState) (uid : Int) (u : UnitDetails)
    (hhit : pyGet st.unit_cache uid = some u) :
    get_unit env st uid false = (st, .ok u, []) := by
  simp [get_unit, hhit]

theorem get_unit_state (env : ClientEnv) (st : ClientState) (uid : Int) (ff : Bool) :
    (get_unit env st uid ff).1 = st ∨
    ∃ u, (get_unit env st uid ff).1 = ⟨pySet st.unit_cache uid u⟩ := by
  unfold get_unit
  by_cases hc : (ff || (pyGet st.unit_cache uid).isNone) = true
  · rw [if_pos hc]
    cases hf : fetch_unit_information env uid with
    | error e => exact Or.inl rfl
    | ok u =>
      refine Or.inr ⟨u, ?_⟩
      dsimp only []
      cases hg : pyGet (pySet st.unit_cache uid u) uid <;> simp [hg]
  · rw [if_neg hc]
    cases hg : pyGet st.unit_cache uid <;> exact Or.inl rfl

theorem get_unit_cache_mono (env : ClientEnv) (st : ClientState) (uid : Int) (ff : Bool)
    (k : Int) (v : UnitDetails) (h : pyGet st.unit_cache k = some v) :
    ∃ v', pyGet (get_unit env st uid ff).1.unit_cache k = some v' := by
  rcases get_unit_state env st uid ff with hs | ⟨u, hs⟩
  · exact ⟨v, by rw [hs]; exact h⟩
  · rw [hs]
    by_cases hk : uid = k
    · subst hk; exact ⟨u, pyGet_pySet_self _ _ _⟩
    · exact ⟨v, by rw [pyGet_pySet_ne _ _ _ _ (Ne.symm hk)]; exact h⟩

theorem get_units_seq_cons_err (env : ClientEnv) (st : ClientState) (uid : Int)
    (rest : List Int) (ff : Bool) (st1 : ClientState) (e : PyExc) (f1 : List Int)
    (hgu : get_unit env st uid ff = (st1, .error e, f1)) :
    get_units_seq env st (uid :: rest) ff = (st1, .error e, f1) := by
  rw [get_units_seq, hgu]

theorem get_units_seq_cons_ok (env : ClientEnv) (st : ClientState) (uid : Int)
    (rest : List Int) (ff : Bool) (st1 : ClientState) (u : UnitDetails) (f1 : List Int)
    (st2 : ClientState) (r2 : Except PyExc (List UnitDetails)) (f2 : List Int)
    (hgu : get_unit env st uid ff = (st1, .ok u, f1))
    (hrec : get_units_seq env st1 rest ff = (st2, r2, f2)) :
    get_units_seq env st (uid :: rest) ff =
      (st2,
       (match r2 with
        | .error e => .error e
        | .ok us => .ok (u :: us)),
       f1 ++ f2) := by
  rw [get_units_seq, hgu]
  dsimp only []
  simp only [hrec]
  cases r2 <;> rfl

theorem get_units_seq_cache_mono (env : ClientEnv) (ids : List Int) :
    ∀ (st : ClientState) (ff : Bool) (k : Int) (v : UnitDetails),
    pyGet st.unit_cache k = some v →
    ∃ v', pyGet (get_units_seq env st ids ff).1.unit_cache k = some v' := by
  induction ids with
  | nil => intro st ff k v h; exact ⟨v, h⟩
  | cons uid rest ih =>
    intro st ff k v h
    obtain ⟨v1, h1⟩ := get_unit_cache_mono env st uid ff k v h
    cases hg : get_unit env st uid ff with
    | mk st1 pr =>
      obtain ⟨r, f1⟩ := pr
      rw [hg] at h1
      cases r with
      | error e =>
        rw [get_units_seq_cons_err env st uid rest ff st1 _ f1 hg]
        exact ⟨v1, h1⟩
      | ok u =>
        obtain ⟨v2, h2⟩ := ih st1 ff k v1 h1
        cases hrec : get_units_seq env st1 rest ff with
        | mk st2 pr2 =>
          obtain ⟨r2, f2⟩ := pr2
          rw [hrec] at h2
          rw [get_units_seq_cons_ok env st uid rest ff st1 u f1 st2 r2 f2 hg hrec]
          exact ⟨v2, h2⟩

theorem get_units_seq_force (env : ClientEnv) (ids : List Int) :
    ∀ st : ClientState,
    (∀ i ∈ ids, ∃ u, fetch_unit_information env i = .ok u) →
    (get_units_seq env st ids true).2.2 = ids := by
  induction ids with
  | nil => intro st _; rfl
  | cons uid rest ih =>
    intro st hok
    obtain ⟨u, hu⟩ := hok uid (List.mem_cons_self _ _)
    have hgu := get_unit_force env st uid u hu
    cases hrec : get_units_seq env ⟨pySet st.unit_cache uid u⟩ rest true with
    | mk st2 pr2 =>
      obtain ⟨r2, f2⟩ := pr2
      rw [get_units_seq_cons_ok env st uid rest true _ u [uid] st2 r2 f2 hgu hrec]
      have hf2 := ih ⟨pySet st.unit_cache uid u⟩
        (fun i hi => hok i (List.mem_cons_of_mem _ hi))
      rw [hrec] at hf2
      show [uid] ++ f2 = uid :: rest
      rw [show f2 = rest from hf2]
      rfl

theorem get_units_seq_fresh (env : ClientEnv) (ids : List Int) :
    ∀ st : ClientState,
    (∀ i ∈ ids, ∃ u, fetch_unit_information env i = .ok u) →
    (∀ i ∈ ids, pyGet st.unit_cache i = none) →
    ids.Nodup →
    (get_units_seq env st ids false).2.2 = ids ∧
    (∀ i ∈ ids, ∃ v, pyGet (get_units_seq env st ids false).1.unit_cache i = some v) := by
  induction ids with
  | nil => intro st _ _ _; exact ⟨rfl, fun i hi => absurd hi (List.not_mem_nil i)⟩
  | cons uid rest ih =>
    intro st hok hmiss hnd
    obtain ⟨u, hu⟩ := hok uid (List.mem_cons_self _ _)
    have hgu := get_unit_miss env st uid u (hmiss uid (List.mem_cons_self _ _)) hu
    rw [List.nodup_cons] at hnd
    have hne : ∀ i ∈ rest, i ≠ uid := fun i hi hEq => hnd.1 (hEq ▸ hi)
    have hmiss' : ∀ i ∈ rest, pyGet (pySet st.unit_cache uid u) i = none := by
      intro i hi
      rw [pyGet_pySet_ne _ _ _ _ (hne i hi)]
      exact hmiss i (List.mem_cons_of_mem _ hi)
    obtain ⟨ih1, ih2⟩ := ih ⟨pySet st.unit_cache uid u⟩
      (fun i hi => hok i (List.mem_cons_of_mem _ hi)) hmiss' hnd.2
    have hmono := get_units_seq_cache_mono env rest ⟨pySet st.unit_cache uid u⟩ false uid u
      (pyGet_pySet_self _ _ _)
    cases hrec : get_units_seq env ⟨pySet st.unit_cache uid u⟩ rest false with
    | mk st2 pr2 =>
      obtain ⟨r2, f2⟩ := pr2
      rw [hrec] at ih1 ih2 hmono
      rw [get_units_seq_cons_ok env st uid rest false _ u [uid] st2 r2 f2 hgu hrec]
      constructor
      · show [uid] ++ f2 = uid :: rest
        rw [show f2 = rest from ih1]
        rfl
      · intro i hi
        rcases List.mem_cons.mp hi with rfl | hi'
        · exact hmono
        · exact ih2 i hi'

theorem get_units_seq_cached (env : ClientEnv) (ids : List Int) :
    ∀ st : ClientState,
    (∀ i ∈ ids, ∃ v, pyGet st.unit_cache i = some v) →
    (get_units_seq env st ids false).2.2 = [] := by
  induction ids with
  | nil => intro st _; rfl
  | cons uid rest ih =>
    intro st hc
    obtain ⟨v, hv⟩ := hc uid (List.mem_cons_self _ _)
    have hgu := get_unit_hit env st uid v hv
    cases hrec : get_units_seq env st rest false with
    | mk st2 pr2 =>
      obtain ⟨r2, f2⟩ := pr2
      rw [get_units_seq_cons_ok env st uid rest false st v [] st2 r2 f2 hgu hrec]
      have hf2 := ih st (fun i hi => hc i (List.mem_cons_of_mem _ hi))
      rw [hrec] at hf2
      show [] ++ f2 = []
      rw [show f2 = [] from hf2]
      rfl

theorem fetch_unit_information_unit_id (env : ClientEnv) (uid : Int) (u : UnitDetails)
    (h : fetch_unit_information env uid = .ok u) : u.unit_id = uid := by
  unfold fetch_unit_information at h
  cases htok : env.freshToken with
  | error e => rw [htok] at h; exact Except.noConfusion h
  | ok tok =>
    rw [htok] at h
    dsimp only [] at h
    cases hreq : make_request (env.unitDetail uid) with
    | error e => rw [hreq] at h; exact Except.noConfusion h
    | ok payload =>
      rw [hreq] at h
      dsimp only [] at h
      rcases payload with _ | v
      · exact Except.noConfusion h
      · cases v with
        | obj fields =>
          injection h with h'
          rw [← h']
        | null => exact Except.noConfusion h
        | bool b => exact Except.noConfusion h
        | int n => exact Except.noConfusion h
        | str s => exact Except.noConfusion h
        | arr xs => exact Except.noConfusion h

theorem mapExcept_ok_map {α β γ : Type} (f : α → Except PyExc β) (g : β → γ)
    (gal : α → γ) (hfg : ∀ a b, f a = .ok b → g b = gal a) :
    ∀ (l : List α) (ys : List β), mapExcept f l = .ok ys → ys.map g = l.map gal := by
  intro l
  induction l with
  | nil =>
    intro ys hy
    injection hy with hy'
    subst hy'
    rfl
  | cons a as ih =>
    intro ys hy
    rw [mapExcept] at hy
    cases hfa : f a with
    | error e => rw [hfa] at hy; exact Except.noConfusion hy
    | ok b =>
      rw [hfa] at hy
      dsimp only [] at hy
      cases hrec : mapExcept f as with
      | error e => rw [hrec] at hy; exact Except.noConfusion hy
      | ok bs =>
        rw [hrec] at hy
        dsimp only [] at hy
        injection hy with hy'
        subst hy'
        rw [List.map_cons, List.map_cons, hfg a b hfa, ih bs hrec]

theorem get_unit_ok_id_cons (env : ClientEnv) (st : ClientState) (uid : Int) (ff : Bool)
    (st1 : ClientState) (u : UnitDetails) (f1 : List Int)
    (hcons : ∀ p ∈ st.unit_cache, (Prod.snd p).unit_id = Prod.fst p)
    (h : get_unit env st uid ff = (st1, .ok u, f1)) :
    u.unit_id = uid ∧ (∀ p ∈ st1.unit_cache, (Prod.snd p).unit_id = Prod.fst p) := by
  unfold get_unit at h
  by_cases hc : (ff || (pyGet st.unit_cache uid).isNone) = true
  · rw [if_pos hc] at h
    cases hf : fetch_unit_information env uid with
    | error e =>
      rw [hf] at h
      dsimp only [] at h
      injection h with h1 h2
      injection h2 with h3 h4
      exact Except.noConfusion h3
    | ok u0 =>
      rw [hf] at h
      dsimp only [] at h
      have hid := fetch_unit_information_unit_id env uid u0 hf
      have hcons1 : ∀ p ∈ pySet st.unit_cache uid u0,
          (Prod.snd p).unit_id = Prod.fst p := by
        intro p hp
        rcases mem_pySet _ _ _ _ hp with rfl | hp'
        · exact hid
        · exact hcons p hp'
      rw [pyGet_pySet_self] at h
      dsimp only [] at h
      injection h with h1 h2
      injection h2 with h3 h4
      injection h3 with h5
      subst h5
      refine ⟨hid, ?_⟩
      rw [← h1]
      exact hcons1
  · rw [if_neg hc] at h
    cases hg : pyGet st.unit_cache uid with
    | none =>
      rw [hg] at h
      dsimp only [] at h
      injection h with h1 h2
      injection h2 with h3 h4
      exact Except.noConfusion h3
    | some u0 =>
      rw [hg] at h
      dsimp only [] at h
      injection h with h1 h2
      injection h2 with h3 h4
      injection h3 with h5
      subst h5
      refine ⟨hcons (uid, u0) (pyGet_mem _ _ _ hg), ?_⟩
      rw [← h1]
      exact hcons

theorem get_units_seq_ids (env : ClientEnv) (ids : List Int) :
    ∀ (st : ClientState) (ff : Bool) (st' : ClientState) (us : List UnitDetails)
      (f : List Int),
    (∀ p ∈ st.unit_cache, (Prod.snd p).unit_id = Prod.fst p) →
    get_units_seq env st ids ff = (st', .ok us, f) →
    us.map (fun u => u.unit_id) = ids ∧
    (∀ p ∈ st'.unit_cache, (Prod.snd p).unit_id = Prod.fst p) := by
  induction ids with
  | nil =>
    intro st ff st' us f hcons h
    injection h with h1 h2
    injection h2 with h3 h4
    injection h3 with h5
    subst h5
    refine ⟨rfl, ?_⟩
    rw [← h1]
    exact hcons
  | cons uid rest ih =>
    intro st ff st' us f hcons h
    cases hg : get_unit env st uid ff with
    | mk st1 pr =>
      obtain ⟨r, f1⟩ := pr
      cases r with
      | error e =>
        rw [get_units_seq_cons_err env st uid rest ff st1 e f1 hg] at h
        injection h with h1 h2
        injection h2 with h3 h4
        exact Except.noConfusion h3
      | ok u =>
        obtain ⟨hid, hcons1⟩ := get_unit_ok_id_cons env st uid ff st1 u f1 hcons hg
        cases hrec : get_units_seq env st1 rest ff with
        | mk st2 pr2 =>
          obtain ⟨r2, f2⟩ := pr2
          rw [get_units_seq_cons_ok env st uid rest ff st1 u f1 st2 r2 f2 hg hrec] at h
          cases r2 with
          | error e =>
            dsimp only [] at h
            injection h with h1 h2
            injection h2 with h3 h4
            exact Except.noConfusion h3
          | ok us2 =>
            dsimp only [] at h
            injection h with h1 h2
            injection h2 with h3 h4
            injection h3 with h5
            obtain ⟨ihids, ihcons⟩ := ih st1 ff st2 us2 f2 hcons1 hrec
            constructor
            · rw [← h5, List.map_cons, ihids, hid]
            · rw [← h1]
              exact ihcons

theorem unitUpdateStep_fst (measurements : List (Int × ScheduledUnitTests))
    (a : UnitDetails) (b : Int × UnitUpdate)
    (hab : unitUpdateStep measurements a = .ok b) : b.1 = a.unit_id := by
  unfold unitUpdateStep at hab
  cases hm : pyGet measurements a.unit_id with
  | none => rw [hm] at hab; exact Except.noConfusion hab
  | some mm =>
    rw [hm] at hab
    dsimp only [] at hab
    injection hab with hb
    rw [← hb]

/-! Claim theorems. -/

/-- C8: for every stored token, `is_expired()` is true iff the current time
is greater than or equal to the stored expiry; equality at the boundary
counts as expired, i.e. the token is valid iff current time < expiry. -/
theorem is_expired_iff_now_ge_expiry (t : ExpirableToken) (now : Int) :
    (t.is_expired now = true ↔ now ≥ t.expiry) ∧
    (t.is_expired now = false ↔ now < t.expiry) := by
  constructor
  · simp [ExpirableToken.is_expired]
  · simp [ExpirableToken.is_expired]

/-- Witness for C8: at the boundary, a token whose expiry equals the clock
is already expired. -/
theorem is_expired_iff_now_ge_expiry_inst :
    (5 : Int) ≥ 5 ∧ (ExpirableToken.mk .null 5).is_expired 5 = true :=
  ⟨by decide, ((is_expired_iff_now_ge_expiry ⟨.null, 5⟩ 5).1).mpr (by decide)⟩

/-- C3 (code bug): a non-OK envelope is claimed to always raise
`RequestFailed`.  In helpers.py — the `_make_request` copy that api.py
imports — `RequestFailed` is never imported, so the
`raise RequestFailed()` statement at helpers.py line 38 itself raises
`NameError` at runtime; only the whitebox.py copy, with `RequestFailed`
defined at the bottom of the same module, raises `RequestFailed` as
claimed.  In both drafts the non-OK path raises an exception, so a non-OK
envelope still never yields a silently empty result, and a success
envelope returns its payload. -/
theorem make_request_non_ok_name_error :
    make_request [("code", .str "FAIL")] = .error .nameError ∧
    make_request_wb [("code", .str "FAIL")] = .error .requestFailed ∧
    make_request [("code", .str "OK"), ("data", .int 7)] = .ok (some (.int 7)) ∧
    make_request_wb [("code", .str "OK"), ("data", .int 7)] = .ok (some (.int 7)) :=
  ⟨rfl, rfl, rfl, rfl⟩

/-- C9: a response whose envelope code is the success sentinel but which has
no `data` key makes `_make_request` return the absent payload (`None`)
rather than raise — success handling never validates the presence of the
data field. -/
theorem make_request_ok_without_data (response : List (String × JVal))
    (hcode : pyGet response "code" = some (.str "OK"))
    (hdata : pyGet response "data" = none) :
    make_request response = .ok none := by
  simp [make_request, hcode, hdata]

/-- Witness for C9: a bare success envelope yields `None` without error. -/
theorem make_request_ok_without_data_inst :
    make_request [("code", .str "OK")] = .ok none :=
  make_request_ok_without_data [("code", .str "OK")] rfl rfl

/-- C6 (code bug): `login` is claimed to return a failure boolean and never
let an exception propagate; the code returns `False` on a non-success
envelope, but a malformed response body and a connection failure both
propagate an exception, because the `try` in auth.py lines 67-71 catches
only `aiohttp.ClientConnectorError` around the body parse. -/
theorem login_propagates_transport_failures :
    login envMalformed {} = ({}, .error .contentTypeError) ∧
    login envNetFail {} = ({}, .error .clientConnectorError) ∧
    login envBadCode {} = ({}, .ok false) :=
  ⟨rfl, rfl, rfl⟩

/-- C1 (code bug): in the `envA` scenario the stored access token is
expired, the refresh fails and the full login fails, yet `get_fresh_token`
raises nothing and returns the stale expired token, because the
`CouldNotAuthenticate` guard at auth.py line 108 only checks
`access_token is None`. -/
theorem get_fresh_token_returns_stale_token :
    refresh_access_token envA stA = (stA, .ok false) ∧
    login envA stA = (stA, .ok false) ∧
    get_fresh_token envA stA = (stA, .ok (.str "old")) ∧
    (ExpirableToken.mk (.str "old") 100).is_expired envA.now = true :=
  ⟨rfl, rfl, rfl, rfl⟩

/-- C2 (code bug): in the `envB` scenario a successful renewal stores the
bare token string into `access_token` (auth.py line 133) and the decoded
expiry into the separate `access_token_expiry` attribute (line 134), so the
claimed replacement by a token-with-expiry does not happen and the next
`get_fresh_token` call raises `AttributeError` instead of operating on the
replaced token. -/
theorem refresh_stores_bare_token :
    refresh_access_token envB stB = (stB', .ok true) ∧
    stB'.access_token = some (.raw (.str "newtok")) ∧
    get_fresh_token envB stB' = (stB', .error .attributeError) :=
  ⟨rfl, rfl, rfl⟩

/-- C10: `_fetch_unit_information` totalizes missing fields of the unit
detail payload: every absent metadata field becomes `None`, an absent
`is_tt_compatible` flag becomes `False`, and `updated_at` is always the
wall-clock time of the fetch, so the returned record is fully populated for
any object-shaped payload. -/
theorem fetch_unit_information_totalizes (env : ClientEnv) (unit_id : Int)
    (tok : JVal) (fields : List (String × JVal))
    (htok : env.freshToken = .ok tok)
    (hreq : make_request (env.unitDetail unit_id) = .ok (some (.obj fields))) :
    ∃ u, fetch_unit_information env unit_id = .ok u ∧
      u.unit_id = unit_id ∧
      u.updated_at = env.nowIso ∧
      (pyGet fields "base" = none → u.base = .null) ∧
      (pyGet fields "front_name" = none → u.front_name = .null) ∧
      (pyGet fields "mac" = none → u.mac = .null) ∧
      (pyGet fields "serial_number" = none → u.serial_number = .null) ∧
      (pyGet fields "package_version" = none → u.package_version = .null) ∧
      (pyGet fields "is_tt_compatible" = none → u.is_tt_compatible = .bool false) := by
  refine ⟨{ unit_id := unit_id
            base := (pyGet fields "base").getD .null
            front_name := (pyGet fields "front_name").getD .null
            mac := (pyGet fields "mac").getD .null
            serial_number := (pyGet fields "serial_number").getD .null
            package_version := (pyGet fields "package_version").getD .null
            is_tt_compatible := (pyGet fields "is_tt_compatible").getD (.bool false)
            updated_at := env.nowIso }, ?_, rfl, rfl, ?_, ?_, ?_, ?_, ?_, ?_⟩
  · unfold fetch_unit_information
    rw [htok, hreq]
  all_goals (intro h; simp [h])

/-- Witness for C10: an empty detail payload produces the fully defaulted
record stamped with the fetch time. -/
theorem fetch_unit_information_totalizes_inst :
    envDetail.freshToken = .ok (.str "tok") ∧
    make_request (envDetail.unitDetail 1) = .ok (some (.obj [])) ∧
    ∃ u, fetch_unit_information envDetail 1 = .ok u ∧
      u.unit_id = 1 ∧
      u.updated_at = envDetail.nowIso ∧
      (pyGet ([] : List (String × JVal)) "base" = none → u.base = .null) ∧
      (pyGet ([] : List (String × JVal)) "front_name" = none → u.front_name = .null) ∧
      (pyGet ([] : List (String × JVal)) "mac" = none → u.mac = .null) ∧
      (pyGet ([] : List (String × JVal)) "serial_number" = none → u.serial_number = .null) ∧
      (pyGet ([] : List (String × JVal)) "package_version" = none → u.package_version = .null) ∧
      (pyGet ([] : List (String × JVal)) "is_tt_compatible" = none → u.is_tt_compatible = .bool false) :=
  ⟨rfl, rfl, fetch_unit_information_totalizes envDetail 1 (.str "tok") [] rfl rfl⟩

/-- C4: the results sequence returned by `_fetch_scheduled_test_results`
consists of the parsed rows sorted by timestamp and then reversed, so it is
a permutation of the parsed rows in descending (most-recent-first)
timestamp order. -/
theorem scheduled_results_sorted_descending (env : ClientEnv) (unit_id : Int)
    (target_date metric : String) (payload : Option JVal) (rows : List JVal)
    (parsed : List ScheduledTestResult) (t : ScheduledTests)
    (hreq : make_request (env.scheduledTests unit_id target_date metric) = .ok payload)
    (hrows : pyIndex payload "results" = .ok (.arr rows))
    (hparse : mapExcept (fun row => parse_scheduled_test_result env row target_date)
      rows = .ok parsed)
    (ht : fetch_scheduled_test_results env unit_id target_date metric = .ok t) :
    t.results = (parsed.insertionSort byTimestamp).reverse ∧
    t.results.Perm parsed ∧
    t.results.Pairwise (fun a b => b.timestamp ≤ a.timestamp) := by
  unfold fetch_scheduled_test_results at ht
  rw [hreq] at ht
  dsimp only [] at ht
  rw [hrows] at ht
  dsimp only [] at ht
  rw [hparse] at ht
  dsimp only [] at ht
  cases h1 : pyIndex payload "metricMetadata" with
  | error e => rw [h1] at ht; exact Except.noConfusion ht
  | ok mm =>
    rw [h1] at ht
    dsimp only [] at ht
    cases h2 : pyIndexJ mm "metricUnit" with
    | error e => rw [h2] at ht; exact Except.noConfusion ht
    | ok mu =>
      rw [h2] at ht
      dsimp only [] at ht
      cases h3 : pyIndex payload "dataUsage" with
      | error e => rw [h3] at ht; exact Except.noConfusion ht
      | ok du =>
        rw [h3] at ht
        dsimp only [] at ht
        cases h4 : pyIndexJ du "totalBytesProcessed" with
        | error e => rw [h4] at ht; exact Except.noConfusion ht
        | ok tb =>
          rw [h4] at ht
          dsimp only [] at ht
          injection ht with ht'
          subst ht'
          refine ⟨rfl, ?_, ?_⟩
          · exact (List.reverse_perm _).trans (List.perm_insertionSort byTimestamp parsed)
          · rw [List.pairwise_reverse]
            exact List.sorted_insertionSort byTimestamp parsed

/-- C5: with all detail fetches succeeding, calling `fetch_user_units` twice
in succession without `force_fresh` issues exactly one unit-detail network
fetch per listed unit id — the first call fetches every listed id, the
second is served entirely from the cache — while `force_fresh` makes the
call fetch every listed id regardless of the cache. -/
theorem fetch_user_units_cache_discipline (env : ClientEnv) (tok : JVal)
    (ro : Option JVal) (uv : JVal) (ids : List Int)
    (htok : env.freshToken = .ok tok)
    (hacc : make_request env.accessibles = .ok ro)
    (hunits : pyIndex ro "units" = .ok uv)
    (hids : extractUnitIds uv = .ok ids)
    (hnd : ids.Nodup)
    (hok : ∀ i ∈ ids, ∃ u, fetch_unit_information env i = .ok u) :
    (fetch_user_units env ⟨[]⟩ false).2.2 = ids ∧
    (fetch_user_units env (fetch_user_units env ⟨[]⟩ false).1 false).2.2 = [] ∧
    (∀ st, (fetch_user_units env st true).2.2 = ids) := by
  have hwrap : ∀ (st : ClientState) (ff : Bool),
      fetch_user_units env st ff = get_units_seq env st ids ff := by
    intro st ff
    unfold fetch_user_units
    rw [htok, hacc]
    dsimp only []
    rw [hunits]
    dsimp only []
    rw [hids]
  refine ⟨?_, ?_, ?_⟩
  · rw [hwrap]
    exact (get_units_seq_fresh env ids ⟨[]⟩ hok (fun i _ => rfl) hnd).1
  · rw [hwrap, hwrap]
    exact get_units_seq_cached env ids _
      (get_units_seq_fresh env ids ⟨[]⟩ hok (fun i _ => rfl) hnd).2
  · intro st
    rw [hwrap]
    exact get_units_seq_force env ids st hok

/-- Witness for C5: with one listed unit, the first call fetches id 1, the
second call fetches nothing, and a forced call fetches id 1 again. -/
theorem fetch_user_units_cache_discipline_inst :
    (fetch_user_units envAll ⟨[]⟩ false).2.2 = [1] ∧
    (fetch_user_units envAll (fetch_user_units envAll ⟨[]⟩ false).1 false).2.2 = [] ∧
    (fetch_user_units envAll ⟨[]⟩ true).2.2 = [1] := by
  have h := fetch_user_units_cache_discipline envAll (.str "tok")
    (some (.obj [("units", .arr [.obj [("unitId", .int 1)]])]))
    (.arr [.obj [("unitId", .int 1)]]) [1] rfl rfl rfl rfl (by simp)
    (fun i hi => by
      have hi1 : i = 1 := by simpa using hi
      subst hi1
      exact ⟨_, rfl⟩)
  exact ⟨h.1, h.2.1, h.2.2 ⟨[]⟩⟩

/-- Witness for C4: the three rows of `rowsSort`, listed oldest first, come
back most recent first, so the latest result sits at index zero. -/
theorem scheduled_results_sorted_descending_inst :
    fetch_scheduled_test_results envSort 1 "2026-01-01" "httpgetmt" = .ok sortedTests ∧
    sortedTests.results.Pairwise (fun a b => b.timestamp ≤ a.timestamp) := by
  constructor
  · rfl
  · exact (scheduled_results_sorted_descending envSort 1 "2026-01-01" "httpgetmt"
      (some dataSort) rowsSort parsedSort sortedTests rfl rfl rfl rfl).2.2

/-- C7: `fetch_all_unit_updates` returns a mapping whose keys are exactly
the unit ids listed by the backend, each paired with the `UnitUpdate`
combining the unit's details with its scheduled-test results. -/
theorem fetch_all_unit_updates_keyed_by_listed_units (env : ClientEnv)
    (st : ClientState) (tok : JVal) (ro : Option JVal) (uv : JVal) (ids : List Int)
    (st' : ClientState) (m : List (Int × UnitUpdate))
    (htok : env.freshToken = .ok tok)
    (hacc : make_request env.accessibles = .ok ro)
    (hunits : pyIndex ro "units" = .ok uv)
    (hids : extractUnitIds uv = .ok ids)
    (hnd : ids.Nodup)
    (hcons : ∀ p ∈ st.unit_cache, (Prod.snd p).unit_id = Prod.fst p)
    (h : fetch_all_unit_updates env st = (st', .ok m)) :
    m.map Prod.fst = ids := by
  have hwrap : fetch_user_units env st false = get_units_seq env st ids false := by
    unfold fetch_user_units
    rw [htok, hacc]
    dsimp only []
    rw [hunits]
    dsimp only []
    rw [hids]
  unfold fetch_all_unit_updates at h
  rw [hwrap] at h
  cases hseq : get_units_seq env st ids false with
  | mk st1 pr =>
    obtain ⟨r, f⟩ := pr
    rw [hseq] at h
    dsimp only [] at h
    cases r with
    | error e =>
      injection h with h1 h2
      exact Except.noConfusion h2
    | ok us =>
      obtain ⟨hus, _⟩ := get_units_seq_ids env ids st false st1 us f hcons hseq
      dsimp only [] at h
      cases hp1 : mapExcept (unitMeasurementsStep env) us with
      | error e =>
        rw [hp1] at h
        dsimp only [] at h
        injection h with h1 h2
        exact Except.noConfusion h2
      | ok pairs =>
        rw [hp1] at h
        dsimp only [] at h
        cases hp2 : mapExcept (unitUpdateStep (pairs.foldl
            (fun acc (p : Int × ScheduledUnitTests) => pySet acc p.1 p.2) [])) us with
        | error e =>
          rw [hp2] at h
          dsimp only [] at h
          injection h with h1 h2
          exact Except.noConfusion h2
        | ok entries =>
          rw [hp2] at h
          dsimp only [] at h
          injection h with h1 h2
          injection h2 with h3
          have hkeys : entries.map Prod.fst = us.map (fun u => u.unit_id) :=
            mapExcept_ok_map _ Prod.fst (fun u => u.unit_id)
              (fun a b hab => unitUpdateStep_fst _ a b hab) us entries hp2
          have hkeys2 : entries.map Prod.fst = ids := hkeys.trans hus
          have hnd2 : (entries.map Prod.fst).Nodup := by rw [hkeys2]; exact hnd
          rw [← h3, foldl_pySet_keys entries [] (fun k _ => rfl) hnd2]
          simpa using hkeys2

/-- Witness for C7: with unit list carrying exactly `unitId` 1, a detail
response for id 1 and one result per metric, the result maps id 1 and only
id 1 to the expected `UnitUpdate`. -/
theorem fetch_all_unit_updates_keyed_inst :
    fetch_all_unit_updates envAll ⟨[]⟩ = (⟨[(1, unitOne)]⟩, .ok [(1, updateOne)]) ∧
    ([(1, updateOne)] : List (Int × UnitUpdate)).map Prod.fst = [1] := by
  constructor
  · rfl
  · exact fetch_all_unit_updates_keyed_by_listed_units envAll ⟨[]⟩ (.str "tok")
      (some (.obj [("units", .arr [.obj [("unitId", .int 1)]])]))
      (.arr [.obj [("unitId", .int 1)]]) [1] ⟨[(1, unitOne)]⟩ [(1, updateOne)]
      rfl rfl rfl rfl (by simp) (fun p hp => absurd hp (List.not_mem_nil p)) rfl

end SamKnows
